import Mathlib

/-!
Verification development for the HomeStore persistence core: a shallow
embedding of the append block allocator (src/lib/blkalloc/append_blk_allocator.cpp),
the log device (src/logdev/log_dev.cpp, src/lib/logstore/log_dev.hpp) and the
write-back checkpoint cache (src/engine/homeds/btree/writeBack_cache.hpp),
with theorems about their stated properties.

Machine integers are modelled as Nat/Int; unsigned wraparound is modelled
explicitly (mod 2^32) at the one place a claim depends on it. Atomic
read-modify-write operations (fetch_add, compare_exchange) are modelled as
their sequential read-modify-write semantics on an explicit state record.
-/

namespace HomestoreSpec

/-! ## AppendBlkAllocator (src/lib/blkalloc/append_blk_allocator.cpp) -/

/-- Return status of a block allocation, from BlkAllocStatus. -/
inductive BlkAllocStatus
  | SUCCESS
  | FAILED
  | SPACE_FULL
deriving DecidableEq, Repr

/-- A block id: starting block number, number of blocks, owning chunk. -/
structure BlkId where
  blk_num : Nat
  blk_count : Nat
  chunk_id : Nat
deriving DecidableEq, Repr

/-- Static configuration of one AppendBlkAllocator instance: total blocks of
the chunk, the per-BlkId encoding limit max_blks_per_blkid, and the chunk id. -/
structure AppendBlkCfg where
  total_blks : Nat
  max_blks_per_blkid : Nat
  chunk_id : Nat
deriving DecidableEq, Repr

/-- On-disk superblock of the append allocator (append_blk_sb_t): the durable
commit offset and the freeable block count. -/
structure AppendBlkSb where
  commit_offset : Nat
  freeable_nblks : Nat
deriving DecidableEq, Repr

/-- Mutable state of an AppendBlkAllocator: the two offsets (cache/disk), the
freeable-block counter, the dirty flag and the in-memory copy of the superblock. -/
structure AppendBlkAllocator where
  m_last_append_offset : Nat
  m_commit_offset : Nat
  m_freeable_nblks : Nat
  m_is_dirty : Bool
  m_sb : AppendBlkSb
deriving DecidableEq, Repr

/-- Constructor with need_format = true: all counters zero, superblock fields
initialised from the zeroed in-memory counters. -/
def AppendBlkAllocator.formatted : AppendBlkAllocator :=
  { m_last_append_offset := 0
    m_commit_offset := 0
    m_freeable_nblks := 0
    m_is_dirty := false
    m_sb := { commit_offset := 0, freeable_nblks := 0 } }

/-- AppendBlkAllocator::on_meta_blk_found: load the superblock and recover
both in-memory offsets from its commit_offset. -/
def AppendBlkAllocator.on_meta_blk_found (sb : AppendBlkSb) (a : AppendBlkAllocator) :
    AppendBlkAllocator :=
  { a with
    m_sb := sb
    m_last_append_offset := sb.commit_offset
    m_commit_offset := sb.commit_offset
    m_freeable_nblks := sb.freeable_nblks }

/-- AppendBlkAllocator::get_used_blks. -/
def AppendBlkAllocator.get_used_blks (a : AppendBlkAllocator) : Nat :=
  a.m_last_append_offset

/-- AppendBlkAllocator::available_blks = get_total_blks() - get_used_blks(). -/
def AppendBlkAllocator.available_blks (cfg : AppendBlkCfg) (a : AppendBlkAllocator) : Nat :=
  cfg.total_blks - a.get_used_blks

/-- AppendBlkAllocator::is_blk_alloced: blk_num < get_used_blks(). -/
def AppendBlkAllocator.is_blk_alloced (a : AppendBlkAllocator) (bid : BlkId) : Bool :=
  bid.blk_num < a.get_used_blks

/-- The available count used by alloc: available_blks reduced by the caller's
reserved_blks hint when present, saturating at zero (the source's
`avail_blks > reserved ? avail_blks - reserved : 0`). -/
def allocAvail (cfg : AppendBlkCfg) (reserved_blks : Option Nat)
    (a : AppendBlkAllocator) : Nat :=
  let avail0 := a.available_blks cfg
  match reserved_blks with
  | some r => if avail0 > r then avail0 - r else 0
  | none => avail0

/-- AppendBlkAllocator::alloc(nblks, hint, out_bid). Checks capacity first
(SPACE_FULL), then the per-BlkId encoding limit (FAILED), otherwise hands out
a BlkId at the current last_append_offset and advances it by nblks. -/
def AppendBlkAllocator.alloc (cfg : AppendBlkCfg) (nblks : Nat)
    (reserved_blks : Option Nat) (a : AppendBlkAllocator) :
    BlkAllocStatus × Option BlkId × AppendBlkAllocator :=
  let avail_blks := allocAvail cfg reserved_blks a
  if avail_blks < nblks then (.SPACE_FULL, none, a)
  else if nblks > cfg.max_blks_per_blkid then (.FAILED, none, a)
  else (.SUCCESS, some ⟨a.m_last_append_offset, nblks, cfg.chunk_id⟩,
        { a with m_last_append_offset := a.m_last_append_offset + nblks })

/-- AppendBlkAllocator::reserve_on_disk: raise commit_offset to
blk_num + blk_count when that is above it (the CAS loop computes a max),
and mark dirty exactly when modified. -/
def AppendBlkAllocator.reserve_on_disk (bid : BlkId) (a : AppendBlkAllocator) :
    AppendBlkAllocator :=
  let new_offset := bid.blk_num + bid.blk_count
  if a.m_commit_offset ≥ new_offset then a
  else { a with m_commit_offset := new_offset, m_is_dirty := true }

/-- AppendBlkAllocator::reserve_on_cache: the analogous ratchet for
last_append_offset; never marks dirty. -/
def AppendBlkAllocator.reserve_on_cache (bid : BlkId) (a : AppendBlkAllocator) :
    AppendBlkAllocator :=
  let new_offset := bid.blk_num + bid.blk_count
  if a.m_last_append_offset ≥ new_offset then a
  else { a with m_last_append_offset := new_offset }

/-- AppendBlkAllocator::free: account the blocks as freeable and mark dirty. -/
def AppendBlkAllocator.free (bid : BlkId) (a : AppendBlkAllocator) :
    AppendBlkAllocator :=
  { a with m_freeable_nblks := a.m_freeable_nblks + bid.blk_count, m_is_dirty := true }

/-- AppendBlkAllocator::cp_flush: when dirty, copy commit_offset and
freeable_nblks into the superblock and clear the dirty flag. -/
def AppendBlkAllocator.cp_flush (a : AppendBlkAllocator) : AppendBlkAllocator :=
  if a.m_is_dirty then
    { a with
      m_is_dirty := false
      m_sb := { commit_offset := a.m_commit_offset, freeable_nblks := a.m_freeable_nblks } }
  else a

/-- One call against the allocator, with its arguments. -/
inductive AllocOp
  | alloc (nblks : Nat) (reserved_blks : Option Nat)
  | reserveOnDisk (bid : BlkId)
  | reserveOnCache (bid : BlkId)
  | free (bid : BlkId)
  | cpFlush
deriving DecidableEq, Repr

/-- State effect of one allocator call. -/
def applyOp (cfg : AppendBlkCfg) (a : AppendBlkAllocator) : AllocOp → AppendBlkAllocator
  | .alloc nblks reserved => (a.alloc cfg nblks reserved).2.2
  | .reserveOnDisk bid => a.reserve_on_disk bid
  | .reserveOnCache bid => a.reserve_on_cache bid
  | .free bid => a.free bid
  | .cpFlush => a.cp_flush

/-- Run a sequence of allocator calls. -/
def runOps (cfg : AppendBlkCfg) (a : AppendBlkAllocator) (ops : List AllocOp) :
    AppendBlkAllocator :=
  ops.foldl (applyOp cfg) a

/-- A reserve_on_disk call is within its intended precondition when the whole
range of the blkid has already been allocated in cache, i.e. its end does not
exceed last_append_offset. All other calls are unrestricted. -/
def goodOp (a : AppendBlkAllocator) : AllocOp → Bool
  | .reserveOnDisk bid => bid.blk_num + bid.blk_count ≤ a.m_last_append_offset
  | _ => true

/-- A call trace is good when each call is good in the state it runs in. -/
def goodTrace (cfg : AppendBlkCfg) (a : AppendBlkAllocator) : List AllocOp → Bool
  | [] => true
  | op :: ops => goodOp a op && goodTrace cfg (applyOp cfg a op) ops

theorem applyOp_preserves_invariant (cfg : AppendBlkCfg) (a : AppendBlkAllocator)
    (op : AllocOp) (hg : goodOp a op = true)
    (hinv : a.m_commit_offset ≤ a.m_last_append_offset) :
    (applyOp cfg a op).m_commit_offset ≤ (applyOp cfg a op).m_last_append_offset := by
  cases op with
  | alloc nblks reserved =>
    simp only [applyOp, AppendBlkAllocator.alloc]
    split
    · exact hinv
    · split
      · exact hinv
      · exact le_trans hinv (Nat.le_add_right _ _)
  | reserveOnDisk bid =>
    simp only [applyOp, AppendBlkAllocator.reserve_on_disk]
    simp only [goodOp, decide_eq_true_eq] at hg
    split
    · exact hinv
    · exact hg
  | reserveOnCache bid =>
    simp only [applyOp, AppendBlkAllocator.reserve_on_cache]
    split
    · exact hinv
    · next h => exact le_trans hinv (le_of_not_le h)
  | free bid =>
    simpa only [applyOp, AppendBlkAllocator.free] using hinv
  | cpFlush =>
    simp only [applyOp, AppendBlkAllocator.cp_flush]
    split
    · exact hinv
    · exact hinv

/-- C4 (counterexample): as stated, the claim admits a reserve_on_disk call
whose blkid passes the code's own is_blk_alloced debug assertion (blk_num <
last_append_offset) yet whose range end exceeds last_append_offset; after it,
commit_offset > last_append_offset. Concretely: format, alloc 5 blocks (so
last_append_offset = 5), then reserve_on_disk of blkid {blk_num 4, count 10}. -/
theorem append_alloc_cache_ge_disk_counterexample :
    (runOps ⟨100, 16, 0⟩ AppendBlkAllocator.formatted
        [.alloc 5 none]).is_blk_alloced ⟨4, 10, 0⟩ = true ∧
    ¬ ((runOps ⟨100, 16, 0⟩ AppendBlkAllocator.formatted
        [.alloc 5 none, .reserveOnDisk ⟨4, 10, 0⟩]).m_commit_offset ≤
       (runOps ⟨100, 16, 0⟩ AppendBlkAllocator.formatted
        [.alloc 5 none, .reserveOnDisk ⟨4, 10, 0⟩]).m_last_append_offset) := by
  decide

/-- C4 (amended): starting from a formatted or recovered state (any state with
commit_offset ≤ last_append_offset), after any sequence of alloc,
reserve_on_disk, reserve_on_cache, free and cp_flush calls in which every
reserve_on_disk argument's whole range is within the cache offset at call time
(blk_num + blk_count ≤ last_append_offset), the in-memory last_append_offset
remains ≥ commit_offset. -/
theorem append_alloc_cache_ge_disk (cfg : AppendBlkCfg) (a : AppendBlkAllocator)
    (ops : List AllocOp)
    (hinv : a.m_commit_offset ≤ a.m_last_append_offset)
    (hgood : goodTrace cfg a ops = true) :
    (runOps cfg a ops).m_commit_offset ≤ (runOps cfg a ops).m_last_append_offset := by
  induction ops generalizing a with
  | nil => exact hinv
  | cons op ops ih =>
    simp only [goodTrace, Bool.and_eq_true] at hgood
    exact ih (applyOp cfg a op) (applyOp_preserves_invariant cfg a op hgood.1 hinv) hgood.2

/-- Witness for the amended C4 at a concrete trace. -/
theorem append_alloc_cache_ge_disk_witness :
    (runOps ⟨100, 16, 0⟩ AppendBlkAllocator.formatted
        [.alloc 5 none, .reserveOnDisk ⟨0, 5, 0⟩, .reserveOnCache ⟨2, 9, 0⟩,
         .free ⟨0, 2, 0⟩, .cpFlush]).m_commit_offset ≤
    (runOps ⟨100, 16, 0⟩ AppendBlkAllocator.formatted
        [.alloc 5 none, .reserveOnDisk ⟨0, 5, 0⟩, .reserveOnCache ⟨2, 9, 0⟩,
         .free ⟨0, 2, 0⟩, .cpFlush]).m_last_append_offset :=
  append_alloc_cache_ge_disk ⟨100, 16, 0⟩ AppendBlkAllocator.formatted
    [.alloc 5 none, .reserveOnDisk ⟨0, 5, 0⟩, .reserveOnCache ⟨2, 9, 0⟩,
     .free ⟨0, 2, 0⟩, .cpFlush] (by decide) (by decide)

/-- C5: alloc returns SPACE_FULL and leaves the state unchanged when the
available count (after the reserved hint, saturating at zero) is below nblks;
returns FAILED and leaves the state unchanged when nblks exceeds
max_blks_per_blkid; otherwise returns SUCCESS with a BlkId at the pre-call
last_append_offset of count nblks, advancing last_append_offset by nblks. -/
theorem append_alloc_cases (cfg : AppendBlkCfg) (nblks : Nat)
    (reserved : Option Nat) (a : AppendBlkAllocator) :
    (allocAvail cfg reserved a < nblks →
      a.alloc cfg nblks reserved = (.SPACE_FULL, none, a)) ∧
    (¬ allocAvail cfg reserved a < nblks → nblks > cfg.max_blks_per_blkid →
      a.alloc cfg nblks reserved = (.FAILED, none, a)) ∧
    (¬ allocAvail cfg reserved a < nblks → ¬ nblks > cfg.max_blks_per_blkid →
      a.alloc cfg nblks reserved =
        (.SUCCESS, some ⟨a.m_last_append_offset, nblks, cfg.chunk_id⟩,
         { a with m_last_append_offset := a.m_last_append_offset + nblks })) := by
  refine ⟨fun h1 => ?_, fun h1 h2 => ?_, fun h1 h2 => ?_⟩
  · simp [AppendBlkAllocator.alloc, h1]
  · simp [AppendBlkAllocator.alloc, h1, h2]
  · simp [AppendBlkAllocator.alloc, h1, h2]

/-- Witness for C5: at total 10, limit 4, offset 3, an alloc of 2 succeeds and
advances the offset to 5. -/
theorem append_alloc_cases_witness :
    AppendBlkAllocator.alloc ⟨10, 4, 7⟩ 2 none
        { m_last_append_offset := 3, m_commit_offset := 1, m_freeable_nblks := 0,
          m_is_dirty := false, m_sb := ⟨1, 0⟩ } =
      (.SUCCESS, some ⟨3, 2, 7⟩,
       { m_last_append_offset := 5, m_commit_offset := 1, m_freeable_nblks := 0,
         m_is_dirty := false, m_sb := ⟨1, 0⟩ }) :=
  (append_alloc_cases ⟨10, 4, 7⟩ 2 none
      { m_last_append_offset := 3, m_commit_offset := 1, m_freeable_nblks := 0,
        m_is_dirty := false, m_sb := ⟨1, 0⟩ }).2.2 (by decide) (by decide)

/-- C10: when both failure conditions hold at once (available count after the
reserved hint below nblks, and nblks above max_blks_per_blkid), alloc returns
SPACE_FULL, not FAILED: the capacity check runs first. -/
theorem append_alloc_space_full_precedence (cfg : AppendBlkCfg) (nblks : Nat)
    (reserved : Option Nat) (a : AppendBlkAllocator)
    (h1 : allocAvail cfg reserved a < nblks)
    (h2 : nblks > cfg.max_blks_per_blkid) :
    (a.alloc cfg nblks reserved).1 = .SPACE_FULL := by
  simp [AppendBlkAllocator.alloc, h1]

/-- Witness for C10: one block left, encoding limit 4, request 6 blocks. -/
theorem append_alloc_space_full_precedence_witness :
    (AppendBlkAllocator.alloc ⟨10, 4, 0⟩ 6 none
        { m_last_append_offset := 9, m_commit_offset := 9, m_freeable_nblks := 0,
          m_is_dirty := false, m_sb := ⟨9, 0⟩ }).1 = .SPACE_FULL :=
  append_alloc_space_full_precedence ⟨10, 4, 0⟩ 6 none
    { m_last_append_offset := 9, m_commit_offset := 9, m_freeable_nblks := 0,
      m_is_dirty := false, m_sb := ⟨9, 0⟩ } (by decide) (by decide)

/-! ## Log group wire format (src/lib/logstore/log_dev.hpp) -/

/-- Truncation of an int64 value to uint32, as the implicit conversion when an
int64 expression is passed for a uint32_t parameter. -/
def toU32 (z : Int) : Nat := (z % (2 ^ 32)).toNat

/-- On-disk serialized_log_record: size, offset within the log group, the
is_inlined bit, the store sequence number and the store id. -/
structure serialized_log_record where
  size : Nat
  offset : Nat
  is_inlined : Bool
  store_seq_num : Int
  store_id : Nat
deriving DecidableEq, Repr

/-- serialized_log_record::get_inlined. -/
def serialized_log_record.get_inlined (r : serialized_log_record) : Bool :=
  r.is_inlined

/-- On-disk log_group_header together with the record slot array that
immediately follows it (record_area); nth_record indexes into that array. -/
structure log_group_header where
  magic : Nat
  version : Nat
  n_log_records : Nat
  start_log_idx : Int
  group_size : Nat
  inline_data_offset : Nat
  oob_data_offset : Nat
  footer_offset : Nat
  prev_grp_crc : Nat
  cur_grp_crc : Nat
  logdev_id : Nat
  records : List serialized_log_record
deriving DecidableEq, Repr

/-- log_group_header::nth_record(n): the n-th entry of the record slot array;
n is a uint32_t. The C++ pointer arithmetic is unchecked, so an index outside
the slot array reads bytes that are not a record slot: modelled as none. -/
def log_group_header.nth_record (h : log_group_header) (n : Nat) :
    Option serialized_log_record :=
  h.records.get? n

/-- The record slot LogDev::read consults for a key: nth_record(key.idx -
header->start_log_idx), the int64 difference truncated to the uint32 parameter. -/
def logdev_read_record (h : log_group_header) (idx : Int) :
    Option serialized_log_record :=
  h.nth_record (toU32 (idx - h.start_log_idx))

/-- The payload offset (from the group start) computed by LogDev::read:
rec->offset + (rec->is_inlined ? 0 : header->oob_data_offset). -/
def logdev_read_payload_loc (h : log_group_header) (idx : Int) : Option Nat :=
  (logdev_read_record h idx).map
    (fun rec => rec.offset + (if rec.is_inlined then 0 else h.oob_data_offset))

/-- The record slot log_group_header::data consults: nth_record(start_log_idx -
idx), again truncated to the uint32 parameter. -/
def log_group_header.data_record (h : log_group_header) (idx : Int) :
    Option serialized_log_record :=
  h.nth_record (toU32 (h.start_log_idx - idx))

/-- The payload offset (from the group start) computed by
log_group_header::data: inline_area() for an inlined record (i.e.
inline_data_offset, ignoring the record's own offset), oob_area() + lr->offset
otherwise. -/
def log_group_header.data_payload_loc (h : log_group_header) (idx : Int) : Option Nat :=
  (h.data_record idx).map
    (fun lr => if lr.get_inlined then h.inline_data_offset else h.oob_data_offset + lr.offset)

/-- The location the claim specifies: the (idx - start_log_idx)-th slot, payload
at record.offset + (record.is_inlined ? 0 : oob_data_offset). -/
def claimed_payload_loc (h : log_group_header) (idx : Int) : Option Nat :=
  (h.records.get? (idx - h.start_log_idx).toNat).map
    (fun rec => rec.offset + (if rec.is_inlined then 0 else h.oob_data_offset))

theorem logdev_read_matches_claim (h : log_group_header) (idx : Int)
    (h1 : h.start_log_idx ≤ idx) (h2 : idx < h.start_log_idx + h.n_log_records)
    (h3 : (h.n_log_records : Int) ≤ 2 ^ 32) :
    logdev_read_payload_loc h idx = claimed_payload_loc h idx := by
  have hnn : 0 ≤ idx - h.start_log_idx := by omega
  have hlt : idx - h.start_log_idx < 2 ^ 32 := by omega
  have : toU32 (idx - h.start_log_idx) = (idx - h.start_log_idx).toNat := by
    simp only [toU32, Int.emod_eq_of_lt hnn hlt]
  simp [logdev_read_payload_loc, claimed_payload_loc, logdev_read_record,
    log_group_header.nth_record, this]

/-- C2: LogDev::read does return the payload from the claimed location (slot
idx - start_log_idx, offset record.offset + (is_inlined ? 0 : oob_data_offset)),
but log_group_header::data does not: at a group with start_log_idx = 0 holding
two inlined records at offsets 104 and 105, data(1) consults
nth_record(start_log_idx - idx), whose uint32 argument underflows to
4294967295 (outside the slot array), and data(0) returns inline_data_offset =
100 instead of the record's own offset 104. -/
theorem log_group_data_accessor_bug :
    (logdev_read_payload_loc
        ⟨15731998, 0, 2, 0, 4096, 100, 512, 4080, 0, 0, 0,
         [⟨5, 104, true, 0, 7⟩, ⟨6, 105, true, 1, 7⟩]⟩ 1 = some 105 ∧
     claimed_payload_loc
        ⟨15731998, 0, 2, 0, 4096, 100, 512, 4080, 0, 0, 0,
         [⟨5, 104, true, 0, 7⟩, ⟨6, 105, true, 1, 7⟩]⟩ 1 = some 105) ∧
    (toU32 ((0 : Int) - 1) = 4294967295 ∧
     log_group_header.data_payload_loc
        ⟨15731998, 0, 2, 0, 4096, 100, 512, 4080, 0, 0, 0,
         [⟨5, 104, true, 0, 7⟩, ⟨6, 105, true, 1, 7⟩]⟩ 1 = none) ∧
    (log_group_header.data_payload_loc
        ⟨15731998, 0, 2, 0, 4096, 100, 512, 4080, 0, 0, 0,
         [⟨5, 104, true, 0, 7⟩, ⟨6, 105, true, 1, 7⟩]⟩ 0 = some 100 ∧
     claimed_payload_loc
        ⟨15731998, 0, 2, 0, 4096, 100, 512, 4080, 0, 0, 0,
         [⟨5, 104, true, 0, 7⟩, ⟨6, 105, true, 1, 7⟩]⟩ 0 = some 104) := by
  refine ⟨⟨?_, ?_⟩, ⟨?_, ?_⟩, ?_, ?_⟩ <;> decide

/-! ## LogGroup record assembly (src/lib/logstore/log_dev.hpp, LogGroup) -/

/-- In-memory log_record: payload size, callback context, store id, store
sequence number (the payload bytes themselves are opaque to the claims). -/
structure log_record where
  data_size : Nat
  context : Nat
  store_id : Nat
  seq_num : Int
deriving DecidableEq, Repr

/-- In-memory LogGroup being assembled: record count, capacity, accumulated
payload size, the slots written so far, and the header/flush fields stamped by
finish and prepare_flush. -/
structure LogGroup where
  m_nrecords : Nat
  m_max_records : Nat
  m_actual_data_size : Nat
  m_records : List log_record
  prev_grp_crc : Nat
  cur_grp_crc : Nat
  m_flush_log_idx_from : Int
  m_flush_log_idx_upto : Int
  m_log_dev_offset : Nat
deriving DecidableEq, Repr

/-- LogGroup::can_accomodate from the source: m_nrecords <= m_max_records. -/
def LogGroup.can_accomodate (lg : LogGroup) (_record : log_record) : Bool :=
  lg.m_nrecords ≤ lg.m_max_records

/-- Modelled from the spec: the body of LogGroup::add_record is not under src/
(only its declaration and its guard LogGroup::can_accomodate are). Per the spec
it rejects the record when the group cannot accommodate it, and otherwise
writes the serialized record slot, copies or references the payload (growing
the inline buffer via create_overflow_buf when it would overflow, which is not
a rejection), and updates the counters and cursors. The accept/reject guard is
the source's can_accomodate. -/
def LogGroup.add_record (lg : LogGroup) (record : log_record) (_log_idx : Int) :
    Bool × LogGroup :=
  if lg.can_accomodate record then
    (true,
     { lg with
       m_nrecords := lg.m_nrecords + 1
       m_records := lg.m_records ++ [record]
       m_actual_data_size := lg.m_actual_data_size + record.data_size })
  else (false, lg)

/-- C3 (counterexample): a LogGroup already holding max_records records
(n_records = max_records = 3) still accepts a record — can_accomodate compares
with <=, so add_record returns true and changes the group, contradicting the
claim that it returns false and leaves the group unchanged. -/
theorem loggroup_full_still_accepts :
    ((⟨3, 3, 10, [⟨2, 0, 1, 0⟩, ⟨3, 0, 1, 1⟩, ⟨5, 0, 1, 2⟩], 0, 0, 0, 0, 0⟩ : LogGroup).m_nrecords =
       (⟨3, 3, 10, [⟨2, 0, 1, 0⟩, ⟨3, 0, 1, 1⟩, ⟨5, 0, 1, 2⟩], 0, 0, 0, 0, 0⟩ : LogGroup).m_max_records) ∧
    (LogGroup.add_record ⟨3, 3, 10, [⟨2, 0, 1, 0⟩, ⟨3, 0, 1, 1⟩, ⟨5, 0, 1, 2⟩], 0, 0, 0, 0, 0⟩ ⟨4, 0, 1, 0⟩ 9).1 = true ∧
    (LogGroup.add_record ⟨3, 3, 10, [⟨2, 0, 1, 0⟩, ⟨3, 0, 1, 1⟩, ⟨5, 0, 1, 2⟩], 0, 0, 0, 0, 0⟩ ⟨4, 0, 1, 0⟩ 9).2 ≠
      (⟨3, 3, 10, [⟨2, 0, 1, 0⟩, ⟨3, 0, 1, 1⟩, ⟨5, 0, 1, 2⟩], 0, 0, 0, 0, 0⟩ : LogGroup) := by
  refine ⟨rfl, rfl, ?_⟩
  decide

/-- C3 (amended): add_record rejects (returns false and leaves the group
unchanged) exactly when n_records > max_records; a record is accepted while
n_records <= max_records — the source's can_accomodate uses <=, so a group
holding exactly max_records records still accepts one more. -/
theorem loggroup_add_record_guard (lg : LogGroup) (record : log_record) (log_idx : Int) :
    (lg.m_nrecords > lg.m_max_records →
       lg.add_record record log_idx = (false, lg)) ∧
    (lg.m_nrecords ≤ lg.m_max_records →
       (lg.add_record record log_idx).1 = true ∧
       (lg.add_record record log_idx).2.m_nrecords = lg.m_nrecords + 1) := by
  constructor
  · intro hgt
    have : lg.can_accomodate record = false := by
      simp [LogGroup.can_accomodate]; omega
    simp [LogGroup.add_record, this]
  · intro hle
    have : lg.can_accomodate record = true := by
      simp [LogGroup.can_accomodate]; omega
    simp [LogGroup.add_record, this]

/-- Witness for the amended C3: a group at capacity 2 with 2 records accepts a
third; a group with 3 records over capacity 2 rejects. -/
theorem loggroup_add_record_guard_witness :
    ((LogGroup.add_record ⟨2, 2, 0, [], 0, 0, 0, 0, 0⟩ ⟨4, 0, 1, 0⟩ 5).1 = true ∧
     (LogGroup.add_record ⟨2, 2, 0, [], 0, 0, 0, 0, 0⟩ ⟨4, 0, 1, 0⟩ 5).2.m_nrecords = 3) ∧
    LogGroup.add_record ⟨3, 2, 0, [], 0, 0, 0, 0, 0⟩ ⟨4, 0, 1, 0⟩ 5 =
      (false, ⟨3, 2, 0, [], 0, 0, 0, 0, 0⟩) :=
  ⟨(loggroup_add_record_guard ⟨2, 2, 0, [], 0, 0, 0, 0, 0⟩ ⟨4, 0, 1, 0⟩ 5).2 (by decide),
   (loggroup_add_record_guard ⟨3, 2, 0, [], 0, 0, 0, 0, 0⟩ ⟨4, 0, 1, 0⟩ 5).1 (by decide)⟩

/-! ## LogDev flush path (src/logdev/log_dev.cpp) -/

/-- Configuration of the LogDev flush path: the flush threshold
(flush_data_threshold_size, an int64 byte count), the maximal quiet time
between flushes, and the CRC-32 function computed by LogGroup::finish over the
group's serialized records and payload (kept abstract: the claims depend only
on how the value is chained, never on the algorithm). -/
structure LogDevCfg where
  flush_data_threshold_size : Int
  max_time_between_flush_us : Nat
  crc32 : List log_record → Nat

/-- One slot of the sisl::StreamTracker of log records: the in-memory record
and its completion mark. -/
structure tracker_entry where
  entry_rec : log_record
  completed : Bool
deriving DecidableEq, Repr

/-- Modelled from the spec: the constant INVALID_CRC32_VALUE that initialises
LogDev::m_last_crc is not under src/; the spec fixes its observable value by
stating that the first group written after format carries prev_group_crc = 0. -/
def INVALID_CRC32_VALUE : Nat := 0

/-- Mutable LogDev state driving the flush path. logid_t indices are int64,
modelled as Int; the record with log idx i sits at position i of
m_log_records (the tracker is not truncated in this model). journal_tail is
the journal blkstore cursor from which alloc_blk hands out device offsets. -/
structure LogDevState where
  m_log_records : List tracker_entry
  m_log_idx : Int
  m_pending_flush_size : Int
  m_is_flushing : Bool
  m_last_flush_idx : Int
  m_last_crc : Nat
  m_block_flush_q : List Nat
  journal_tail : Nat
deriving DecidableEq, Repr

/-- LogDev state right after start(format = true). -/
def LogDevState.formatted : LogDevState :=
  { m_log_records := []
    m_log_idx := 0
    m_pending_flush_size := 0
    m_is_flushing := false
    m_last_flush_idx := -1
    m_last_crc := INVALID_CRC32_VALUE
    m_block_flush_q := []
    journal_tail := 0 }

/-- LogGroup::max_records_in_a_batch: (initial_read_size -
sizeof(log_group_header)) / sizeof(serialized_log_record) with the packed
struct sizes 48 and 20, i.e. 202. -/
def max_records_in_a_batch : Nat := (4096 - 48) / 20

/-- Modelled from the spec: the body of LogGroup::reset (called by
LogDev::make_log_group) is not under src/; per the spec it zeroes the header
and counters and bounds the record capacity by the compile-time batch maximum. -/
def make_log_group (estimated_records : Int) : LogGroup :=
  { m_nrecords := 0
    m_max_records := min estimated_records.toNat max_records_in_a_batch
    m_actual_data_size := 0
    m_records := []
    prev_grp_crc := 0
    cur_grp_crc := 0
    m_flush_log_idx_from := 0
    m_flush_log_idx_upto := 0
    m_log_dev_offset := 0 }

/-- The active tracker records scanned by foreach_active(m_last_flush_idx + 1):
the records with log idx in [m_last_flush_idx + 1, m_log_idx), paired with
their indices. -/
def LogDevState.activeEntries (s : LogDevState) : List (Int × log_record) :=
  (List.range (s.m_log_idx - (s.m_last_flush_idx + 1)).toNat).map
    (fun (k : Nat) =>
      (s.m_last_flush_idx + 1 + k,
       (s.m_log_records.getD (s.m_last_flush_idx + 1 + k).toNat ⟨⟨0, 0, 0, 0⟩, false⟩).entry_rec))

/-- The record-adding loop of LogDev::prepare_flush: keep calling add_record
and tracking the idx flushed upto, stopping at the first rejection.
flushing_upto_idx starts at 0 as in the source. -/
def addLoop : LogGroup → Int → List (Int × log_record) → LogGroup × Int
  | lg, upto, [] => (lg, upto)
  | lg, upto, (idx, rec) :: rest =>
    let (ok, lg2) := lg.add_record rec idx
    if ok then addLoop lg2 idx rest else (lg, upto)

/-- The byte size of the assembled group (header + slots + data; the source
additionally pads to flush_size_multiple, which no claim depends on). -/
def LogGroup.group_bytes (lg : LogGroup) : Nat :=
  48 + 20 * lg.m_records.length + lg.m_actual_data_size

/-- LogDev::prepare_flush: build a group from the active tracker records,
finish it (LogGroup::finish's body is not under src/ and is modelled from the
spec: it stamps prev_group_crc from LogDev::m_last_crc and computes the group
CRC), set the flush idx range and allocate the device offset. -/
def prepare_flush (cfg : LogDevCfg) (estimated_records : Int) (s : LogDevState) :
    LogGroup × LogDevState :=
  let lg0 := make_log_group estimated_records
  let (lg1, upto) := addLoop lg0 0 s.activeEntries
  let lg2 :=
    { lg1 with
      prev_grp_crc := s.m_last_crc
      cur_grp_crc := cfg.crc32 lg1.m_records
      m_flush_log_idx_from := s.m_last_flush_idx + 1
      m_flush_log_idx_upto := upto
      m_log_dev_offset := s.journal_tail }
  (lg2, { s with journal_tail := s.journal_tail + lg1.group_bytes })

/-- LogDev::flush_if_needed(new_record_size, new_idx): fetch_add the record
size onto pending_flush_size; when the new pending size reaches the threshold,
or is nonzero and the elapsed time since the last flush exceeds
max_time_between_flush_us, attempt the CAS on is_flushing: the winner prepares
the group, subtracts its actual data size from pending and submits it via
do_flush (the returned group); a loser returns at once. elapsed_us stands for
get_elapsed_time_us(m_last_flush_time). -/
def flush_if_needed (cfg : LogDevCfg) (new_record_size : Nat) (new_idx : Int)
    (elapsed_us : Nat) (s : LogDevState) : Option LogGroup × LogDevState :=
  let pending_sz := s.m_pending_flush_size + new_record_size
  let s1 := { s with m_pending_flush_size := pending_sz }
  if pending_sz ≥ cfg.flush_data_threshold_size ∨
      (pending_sz ≠ 0 ∧ elapsed_us > cfg.max_time_between_flush_us) then
    if s1.m_is_flushing then (none, s1)
    else
      let s2 := { s1 with m_is_flushing := true }
      let new_idx2 := if new_idx = -1 then s2.m_log_idx else new_idx
      let (lg, s3) := prepare_flush cfg (new_idx2 - s2.m_last_flush_idx + 4) s2
      let s4 := { s3 with m_pending_flush_size := s3.m_pending_flush_size - lg.m_actual_data_size }
      (some lg, s4)
  else (none, s1)

/-- LogDev::append_async: allocate the next log idx, insert the record into
the tracker, call flush_if_needed(size, idx) and return the idx (and the group
that call may have submitted). -/
def append_async (cfg : LogDevCfg) (store_id : Nat) (seq_num : Int) (size : Nat)
    (ctx : Nat) (elapsed_us : Nat) (s : LogDevState) :
    Int × Option LogGroup × LogDevState :=
  let idx := s.m_log_idx
  let s1 :=
    { s with
      m_log_idx := idx + 1
      m_log_records := s.m_log_records ++ [⟨⟨size, ctx, store_id, seq_num⟩, false⟩] }
  let (olg, s2) := flush_if_needed cfg size idx elapsed_us s1
  (idx, olg, s2)

/-- Observable events of the flush-completion path, in program order. -/
inductive LogDevEvent
  | completeRange (lo hi : Int)
  | appendCb (store_id : Nat) (idx : Int) (dev_offset : Nat) (flush_idx : Int)
      (nremaining_in_batch : Nat) (ctx : Nat)
  | setLastCrc (crc : Nat)
  | blockedCb (cb : Nat)
  | unlockFlush
deriving DecidableEq, Repr

/-- StreamTracker::complete(lo, hi): mark the tracker entries with idx in
[lo, hi] complete; the first explicit argument is the idx of the list head. -/
def markComplete (lo hi : Int) : Int → List tracker_entry → List tracker_entry
  | _, [] => []
  | i, e :: rest =>
    (if lo ≤ i ∧ i ≤ hi then { e with completed := true } else e) ::
      markComplete lo hi (i + 1) rest

/-- The ascending list of log indices lo, lo+1, ..., hi. -/
def intRange (lo hi : Int) : List Int :=
  (List.range (hi + 1 - lo).toNat).map (fun (k : Nat) => lo + k)

/-- The tracker record at a log idx (StreamTracker::at). -/
def LogDevState.trackerRecAt (s : LogDevState) (idx : Int) : log_record :=
  (s.m_log_records.getD idx.toNat ⟨⟨0, 0, 0, 0⟩, false⟩).entry_rec

/-- LogDev::unlock_flush: run the blocked flush callbacks, clear is_flushing
(the unlockFlush event), then chain flush_if_needed(). A group submitted by
the chained call is in flight and produces no event here. -/
def unlock_flush (cfg : LogDevCfg) (elapsed_us : Nat) (s : LogDevState) :
    LogDevState × List LogDevEvent :=
  let evs := s.m_block_flush_q.map LogDevEvent.blockedCb
  let s1 := { s with m_block_flush_q := [], m_is_flushing := false }
  let (_, s2) := flush_if_needed cfg 0 (-1) elapsed_us s1
  (s2, evs ++ [.unlockFlush])

/-- LogDev::on_flush_completion: mark the flushed range complete in the
tracker, advance last_flush_idx, fire the append-completion callback per
record in ascending idx order with nremaining_in_batch = upto - idx, update
m_last_crc from the group header, then unlock the flush. elapsed_us stands for
the elapsed time at the chained flush_if_needed inside unlock_flush. -/
def on_flush_completion (cfg : LogDevCfg) (lg : LogGroup) (elapsed_us : Nat)
    (s : LogDevState) : LogDevState × List LogDevEvent :=
  let lo := lg.m_flush_log_idx_from
  let hi := lg.m_flush_log_idx_upto
  let s1 :=
    { s with
      m_log_records := markComplete lo hi 0 s.m_log_records
      m_last_flush_idx := hi }
  let cbs := (intRange lo hi).map (fun idx =>
    LogDevEvent.appendCb (s1.trackerRecAt idx).store_id idx lg.m_log_dev_offset hi
      (hi - idx).toNat (s1.trackerRecAt idx).context)
  let s2 := { s1 with m_last_crc := lg.cur_grp_crc }
  let (s3, uevs) := unlock_flush cfg elapsed_us s2
  (s3, [LogDevEvent.completeRange lo hi] ++ cbs ++ [LogDevEvent.setLastCrc lg.cur_grp_crc] ++ uevs)

/-- Total payload size of a batch of records. -/
def batchSize (recs : List log_record) : Nat :=
  (recs.map log_record.data_size).sum

/-- Append a batch of records through append_async (any group a triggered
flush submits is dropped by the driver; the lemmas below only use this in
regimes where no flush triggers). -/
def appendBatch (cfg : LogDevCfg) (elapsed_us : Nat) (recs : List log_record)
    (s : LogDevState) : LogDevState :=
  recs.foldl
    (fun st r => (append_async cfg r.store_id r.seq_num r.data_size r.context elapsed_us st).2.2)
    s

/-- One full flush round: a triggering flush_if_needed (timer path, no new
record) followed, when a group was submitted, by its on_flush_completion.
elapsed_us is the time since the last flush at the trigger; elapsed_compl_us
the (small) time at the chained call inside the completion. -/
def flushStep (cfg : LogDevCfg) (elapsed_us elapsed_compl_us : Nat) (s : LogDevState) :
    Option LogGroup × LogDevState :=
  match flush_if_needed cfg 0 (-1) elapsed_us s with
  | (some lg, s1) => (some lg, (on_flush_completion cfg lg elapsed_compl_us s1).1)
  | (none, s1) => (none, s1)

/-- C6: flush_if_needed initiates preparation of a log group iff, after adding
the new record size, the pending flush size is at least
flush_data_threshold_size, or is nonzero with the elapsed time since the last
flush above max_time_between_flush_us, and the CAS on is_flushing (false to
true) is won; a caller that loses the CAS returns at once having only added
its size to pending; a winner leaves is_flushing set, so at most one flush is
in flight; and a repeated call with nothing newly pending is a no-op that
writes no group. -/
theorem logdev_flush_trigger (cfg : LogDevCfg) (size : Nat) (idx : Int)
    (elapsed : Nat) (s : LogDevState) :
    ((flush_if_needed cfg size idx elapsed s).1.isSome = true ↔
      ((s.m_pending_flush_size + size ≥ cfg.flush_data_threshold_size ∨
        (s.m_pending_flush_size + size ≠ 0 ∧ elapsed > cfg.max_time_between_flush_us)) ∧
       s.m_is_flushing = false)) ∧
    (s.m_is_flushing = true →
      flush_if_needed cfg size idx elapsed s =
        (none, { s with m_pending_flush_size := s.m_pending_flush_size + size })) ∧
    ((flush_if_needed cfg size idx elapsed s).1.isSome = true →
      (flush_if_needed cfg size idx elapsed s).2.m_is_flushing = true) ∧
    (s.m_pending_flush_size = 0 → size = 0 → 0 < cfg.flush_data_threshold_size →
      flush_if_needed cfg size idx elapsed s = (none, s)) := by
  refine ⟨?_, ?_, ?_, ?_⟩
  · constructor
    · intro hsome
      unfold flush_if_needed at hsome
      by_cases hcond : (s.m_pending_flush_size + size ≥ cfg.flush_data_threshold_size ∨
          (s.m_pending_flush_size + size ≠ 0 ∧ elapsed > cfg.max_time_between_flush_us))
      · refine ⟨hcond, ?_⟩
        by_cases hf : s.m_is_flushing
        · simp [hcond, hf] at hsome
        · simpa using hf
      · simp [hcond] at hsome
    · rintro ⟨hcond, hf⟩
      unfold flush_if_needed
      simp [hcond, hf]
  · intro hf
    unfold flush_if_needed
    by_cases hcond : (s.m_pending_flush_size + size ≥ cfg.flush_data_threshold_size ∨
        (s.m_pending_flush_size + size ≠ 0 ∧ elapsed > cfg.max_time_between_flush_us))
    · simp [hcond, hf]
    · simp [hcond, hf]
  · intro hsome
    unfold flush_if_needed at hsome ⊢
    by_cases hcond : (s.m_pending_flush_size + size ≥ cfg.flush_data_threshold_size ∨
        (s.m_pending_flush_size + size ≠ 0 ∧ elapsed > cfg.max_time_between_flush_us))
    · by_cases hf : s.m_is_flushing
      · simp [hcond, hf] at hsome
      · simp [hcond, hf, prepare_flush]
    · simp [hcond] at hsome
  · intro hp hsz hthr
    subst hsz
    have hps : s.m_pending_flush_size + ((0 : Nat) : Int) = 0 := by rw [hp]; simp
    simp only [flush_if_needed, hps]
    have hcond : ¬ ((0 : Int) ≥ cfg.flush_data_threshold_size ∨
        ((0 : Int) ≠ 0 ∧ elapsed > cfg.max_time_between_flush_us)) := by
      rintro (h | ⟨h1, -⟩)
      · omega
      · exact h1 rfl
    rw [if_neg hcond, ← hp]

/-- Witness for C6: in a state with 10 bytes pending and threshold 8, a call
with a 0-size hint and is_flushing clear initiates a flush and sets the flag. -/
theorem logdev_flush_trigger_witness :
    ((flush_if_needed ⟨8, 100, fun l => l.length⟩ 0 (-1) 0
        { m_log_records := [⟨⟨10, 0, 1, 0⟩, false⟩], m_log_idx := 1,
          m_pending_flush_size := 10, m_is_flushing := false, m_last_flush_idx := -1,
          m_last_crc := 0, m_block_flush_q := [], journal_tail := 0 }).1.isSome = true) ∧
    ((flush_if_needed ⟨8, 100, fun l => l.length⟩ 0 (-1) 0
        { m_log_records := [⟨⟨10, 0, 1, 0⟩, false⟩], m_log_idx := 1,
          m_pending_flush_size := 10, m_is_flushing := false, m_last_flush_idx := -1,
          m_last_crc := 0, m_block_flush_q := [], journal_tail := 0 }).2.m_is_flushing = true) :=
  ⟨(logdev_flush_trigger ⟨8, 100, fun l => l.length⟩ 0 (-1) 0
      { m_log_records := [⟨⟨10, 0, 1, 0⟩, false⟩], m_log_idx := 1,
        m_pending_flush_size := 10, m_is_flushing := false, m_last_flush_idx := -1,
        m_last_crc := 0, m_block_flush_q := [], journal_tail := 0 }).1.mpr
      ⟨Or.inl (by norm_num), rfl⟩,
   (logdev_flush_trigger ⟨8, 100, fun l => l.length⟩ 0 (-1) 0
      { m_log_records := [⟨⟨10, 0, 1, 0⟩, false⟩], m_log_idx := 1,
        m_pending_flush_size := 10, m_is_flushing := false, m_last_flush_idx := -1,
        m_last_crc := 0, m_block_flush_q := [], journal_tail := 0 }).2.2.1
     ((logdev_flush_trigger ⟨8, 100, fun l => l.length⟩ 0 (-1) 0
      { m_log_records := [⟨⟨10, 0, 1, 0⟩, false⟩], m_log_idx := 1,
        m_pending_flush_size := 10, m_is_flushing := false, m_last_flush_idx := -1,
        m_last_crc := 0, m_block_flush_q := [], journal_tail := 0 }).1.mpr
      ⟨Or.inl (by norm_num), rfl⟩)⟩

theorem flush_if_needed_frame (cfg : LogDevCfg) (n : Nat) (idx : Int) (e : Nat)
    (s : LogDevState) :
    (flush_if_needed cfg n idx e s).2.m_log_records = s.m_log_records ∧
    (flush_if_needed cfg n idx e s).2.m_last_flush_idx = s.m_last_flush_idx ∧
    (flush_if_needed cfg n idx e s).2.m_last_crc = s.m_last_crc ∧
    (flush_if_needed cfg n idx e s).2.m_log_idx = s.m_log_idx ∧
    (flush_if_needed cfg n idx e s).2.m_block_flush_q = s.m_block_flush_q := by
  by_cases hcond : (s.m_pending_flush_size + n ≥ cfg.flush_data_threshold_size ∨
      (s.m_pending_flush_size + n ≠ 0 ∧ e > cfg.max_time_between_flush_us))
  · by_cases hf : s.m_is_flushing
    · simp [flush_if_needed, hcond, hf]
    · simp [flush_if_needed, hcond, hf, prepare_flush]
  · simp [flush_if_needed, hcond]

theorem markComplete_length (lo hi : Int) :
    ∀ (b : Int) (l : List tracker_entry), (markComplete lo hi b l).length = l.length := by
  intro b l
  induction l generalizing b with
  | nil => rfl
  | cons e rest ih => simp [markComplete, ih]

theorem markComplete_getD_entry_rec (lo hi : Int) (d : tracker_entry) :
    ∀ (l : List tracker_entry) (b : Int) (i : Nat),
      ((markComplete lo hi b l).getD i d).entry_rec = (l.getD i d).entry_rec := by
  intro l
  induction l with
  | nil => intro b i; rfl
  | cons e rest ih =>
    intro b i
    cases i with
    | zero =>
      simp only [markComplete, List.getD_cons_zero]
      split <;> rfl
    | succ i => simpa [markComplete] using ih (b + 1) i

theorem markComplete_getD_completed (lo hi : Int) (d : tracker_entry) :
    ∀ (l : List tracker_entry) (b : Int) (i : Nat), i < l.length →
      lo ≤ b + i → b + i ≤ hi →
      ((markComplete lo hi b l).getD i d).completed = true := by
  intro l
  induction l with
  | nil => intro b i hi'; simp at hi'
  | cons e rest ih =>
    intro b i hlen hlo hhi
    cases i with
    | zero =>
      simp only [Nat.cast_zero, Int.add_zero] at hlo hhi
      simp [markComplete, hlo, hhi]
    | succ i =>
      have hlo2 : lo ≤ (b + 1) + i := by push_cast at hlo ⊢; omega
      have hhi2 : (b + 1) + (i : Int) ≤ hi := by push_cast at hhi ⊢; omega
      simpa [markComplete] using ih (b + 1) i (by simpa using hlen) hlo2 hhi2

/-- C7: on_flush_completion marks the flushed range complete in the tracker,
sets last_flush_idx to the upto index, fires the append callback exactly once
per record in ascending log_idx order with nremaining_in_batch = upto - idx,
sets m_last_crc to the group's cur_grp_crc, and releases the flush lock only
after all of that (the unlockFlush event is last in the emitted order). -/
theorem logdev_flush_completion_order (cfg : LogDevCfg) (lg : LogGroup)
    (elapsed : Nat) (s : LogDevState) (d : tracker_entry) :
    ((on_flush_completion cfg lg elapsed s).1.m_last_flush_idx = lg.m_flush_log_idx_upto) ∧
    ((on_flush_completion cfg lg elapsed s).1.m_last_crc = lg.cur_grp_crc) ∧
    (∀ i : Nat, i < s.m_log_records.length → lg.m_flush_log_idx_from ≤ (i : Int) →
      (i : Int) ≤ lg.m_flush_log_idx_upto →
      (((on_flush_completion cfg lg elapsed s).1.m_log_records.getD i d).completed = true)) ∧
    ((on_flush_completion cfg lg elapsed s).2 =
      [.completeRange lg.m_flush_log_idx_from lg.m_flush_log_idx_upto] ++
      (intRange lg.m_flush_log_idx_from lg.m_flush_log_idx_upto).map (fun idx =>
        .appendCb (s.trackerRecAt idx).store_id idx lg.m_log_dev_offset
          lg.m_flush_log_idx_upto (lg.m_flush_log_idx_upto - idx).toNat
          (s.trackerRecAt idx).context) ++
      [.setLastCrc lg.cur_grp_crc] ++
      s.m_block_flush_q.map .blockedCb ++ [.unlockFlush]) := by
  have hmark : ∀ idx : Int, 0 ≤ idx →
      ((markComplete lg.m_flush_log_idx_from lg.m_flush_log_idx_upto 0
          s.m_log_records).getD idx.toNat ⟨⟨0, 0, 0, 0⟩, false⟩).entry_rec =
        (s.m_log_records.getD idx.toNat ⟨⟨0, 0, 0, 0⟩, false⟩).entry_rec := by
    intro idx _
    exact markComplete_getD_entry_rec _ _ _ s.m_log_records 0 idx.toNat
  refine ⟨?_, ?_, ?_, ?_⟩
  · simp only [on_flush_completion, unlock_flush]
    have := (flush_if_needed_frame cfg 0 (-1) elapsed
      { s with
        m_log_records := markComplete lg.m_flush_log_idx_from lg.m_flush_log_idx_upto 0
          s.m_log_records
        m_last_flush_idx := lg.m_flush_log_idx_upto
        m_last_crc := lg.cur_grp_crc
        m_block_flush_q := []
        m_is_flushing := false }).2.1
    simpa using this
  · simp only [on_flush_completion, unlock_flush]
    have := (flush_if_needed_frame cfg 0 (-1) elapsed
      { s with
        m_log_records := markComplete lg.m_flush_log_idx_from lg.m_flush_log_idx_upto 0
          s.m_log_records
        m_last_flush_idx := lg.m_flush_log_idx_upto
        m_last_crc := lg.cur_grp_crc
        m_block_flush_q := []
        m_is_flushing := false }).2.2.1
    simpa using this
  · intro i hilen hlo hhi
    simp only [on_flush_completion, unlock_flush]
    have hrecords := (flush_if_needed_frame cfg 0 (-1) elapsed
      { s with
        m_log_records := markComplete lg.m_flush_log_idx_from lg.m_flush_log_idx_upto 0
          s.m_log_records
        m_last_flush_idx := lg.m_flush_log_idx_upto
        m_last_crc := lg.cur_grp_crc
        m_block_flush_q := []
        m_is_flushing := false }).1
    simp only [hrecords]
    have := markComplete_getD_completed lg.m_flush_log_idx_from lg.m_flush_log_idx_upto d
      s.m_log_records 0 i hilen (by simpa using hlo) (by simpa using hhi)
    simpa using this
  · have hcbs : ∀ idx : Int,
        (LogDevState.trackerRecAt
          { s with
            m_log_records := markComplete lg.m_flush_log_idx_from lg.m_flush_log_idx_upto 0
              s.m_log_records
            m_last_flush_idx := lg.m_flush_log_idx_upto } idx) = s.trackerRecAt idx := by
      intro idx
      simp only [LogDevState.trackerRecAt]
      exact markComplete_getD_entry_rec _ _ _ s.m_log_records 0 idx.toNat
    simp only [on_flush_completion, unlock_flush, hcbs]
    simp

theorem getD_append_add {α : Type} (l1 l2 : List α) (k : Nat) (d : α) :
    (l1 ++ l2).getD (l1.length + k) d = l2.getD k d := by
  induction l1 with
  | nil => simp
  | cons a t ih => simpa [Nat.succ_add] using ih

theorem map_getD_range {α : Type} (l : List α) (d : α) :
    (List.range l.length).map (fun k => l.getD k d) = l := by
  induction l with
  | nil => simp
  | cons a t ih =>
    rw [List.length_cons, List.range_succ_eq_map, List.map_cons, List.map_map]
    have hcomp : ((fun k => (a :: t).getD k d) ∘ Nat.succ) = fun k => t.getD k d := by
      funext k
      simp [List.getD_cons_succ]
    rw [hcomp, ih]
    simp [List.getD_cons_zero]

theorem getLastD_range_add (n : Nat) :
    ∀ (base u : Int), 0 < n →
      (((List.range n).map (fun (k : Nat) => base + (k : Int)))).getLastD u = base + n - 1 := by
  induction n with
  | zero => intro base u h; omega
  | succ m ih =>
    intro base u h
    rw [List.range_succ_eq_map, List.map_cons, List.map_map, List.getLastD_cons]
    rcases Nat.eq_zero_or_pos m with h0 | hpos
    · subst h0
      simp
    · have hcomp : ((fun (k : Nat) => base + (k : Int)) ∘ Nat.succ) =
          (fun (k : Nat) => (base + 1) + (k : Int)) := by
        funext k
        simp only [Function.comp_apply]
        push_cast
        ring
      rw [hcomp, ih (base + 1) _ hpos]
      push_cast
      ring

theorem batchSize_nil : batchSize [] = 0 := rfl

theorem batchSize_cons (r : log_record) (l : List log_record) :
    batchSize (r :: l) = r.data_size + batchSize l := by
  simp [batchSize]

theorem appendBatch_no_flush (cfg : LogDevCfg) (elapsed : Nat)
    (recs : List log_record) (s : LogDevState)
    (hel : ¬ elapsed > cfg.max_time_between_flush_us)
    (hsum : s.m_pending_flush_size + batchSize recs < cfg.flush_data_threshold_size)
    (hpend : 0 ≤ s.m_pending_flush_size) :
    appendBatch cfg elapsed recs s =
      { s with
        m_log_records := s.m_log_records ++ recs.map (fun r => ⟨r, false⟩)
        m_log_idx := s.m_log_idx + recs.length
        m_pending_flush_size := s.m_pending_flush_size + batchSize recs } := by
  induction recs generalizing s with
  | nil => simp [appendBatch, batchSize]
  | cons r rest ih =>
    have hc : ¬ (s.m_pending_flush_size + (r.data_size : Int) ≥ cfg.flush_data_threshold_size ∨
        (s.m_pending_flush_size + (r.data_size : Int) ≠ 0 ∧
         elapsed > cfg.max_time_between_flush_us)) := by
      rintro (h | ⟨-, h2⟩)
      · rw [batchSize_cons] at hsum
        push_cast at hsum
        omega
      · exact hel h2
    have hstep : (append_async cfg r.store_id r.seq_num r.data_size r.context elapsed s).2.2 =
        { s with
          m_log_records := s.m_log_records ++ [⟨r, false⟩]
          m_log_idx := s.m_log_idx + 1
          m_pending_flush_size := s.m_pending_flush_size + r.data_size } := by
      simp only [append_async, flush_if_needed]
      rw [if_neg hc]
    have hsum2 : (s.m_pending_flush_size + r.data_size) + batchSize rest <
        cfg.flush_data_threshold_size := by
      rw [batchSize_cons] at hsum
      push_cast at hsum ⊢
      omega
    have hpend2 : (0 : Int) ≤ s.m_pending_flush_size + r.data_size := by positivity
    simp only [appendBatch, List.foldl_cons]
    have hfold : ∀ t : LogDevState, List.foldl
        (fun st r2 => (append_async cfg r2.store_id r2.seq_num r2.data_size r2.context
          elapsed st).2.2) t rest = appendBatch cfg elapsed rest t := fun t => rfl
    rw [hfold, hstep, ih _ hsum2 hpend2]
    rw [batchSize_cons]
    simp only [List.append_assoc, List.singleton_append, List.map_cons, List.length_cons]
    congr 1
    · push_cast
      ring
    · push_cast
      ring

theorem activeEntries_eq (old : List tracker_entry) (batch : List log_record)
    (s : LogDevState)
    (hrec : s.m_log_records = old ++ batch.map (fun r => ⟨r, false⟩))
    (hidx : s.m_log_idx = (old.length : Int) + batch.length)
    (hlast : s.m_last_flush_idx = (old.length : Int) - 1) :
    s.activeEntries = (List.range batch.length).map
      (fun (k : Nat) => ((old.length : Int) + k, batch.getD k ⟨0, 0, 0, 0⟩)) := by
  simp only [LogDevState.activeEntries, hrec, hidx, hlast]
  have hcount : ((old.length : Int) + batch.length - ((old.length : Int) - 1 + 1)).toNat =
      batch.length := by push_cast; omega
  rw [hcount]
  refine List.map_congr_left ?_
  intro k hk
  have hIdx : (old.length : Int) - 1 + 1 + k = (old.length : Int) + k := by ring
  rw [hIdx]
  have hToNat : ((old.length : Int) + k).toNat = old.length + k := by push_cast; omega
  rw [hToNat, getD_append_add]
  have hGet : ((batch.map (fun r => (⟨r, false⟩ : tracker_entry))).getD k
      ⟨⟨0, 0, 0, 0⟩, false⟩).entry_rec = batch.getD k ⟨0, 0, 0, 0⟩ := by
    induction batch generalizing k with
    | nil => simp [List.getD]
    | cons a t ihb =>
      cases k with
      | zero => rfl
      | succ k2 => simpa [List.getD_cons_succ] using ihb k2 (by simp)
  rw [hGet]

theorem addLoop_all (entries : List (Int × log_record)) (lg : LogGroup) (upto : Int)
    (h : lg.m_nrecords + entries.length ≤ lg.m_max_records + 1) :
    addLoop lg upto entries =
      ({ lg with
         m_nrecords := lg.m_nrecords + entries.length
         m_records := lg.m_records ++ entries.map Prod.snd
         m_actual_data_size := lg.m_actual_data_size + batchSize (entries.map Prod.snd) },
       (entries.map Prod.fst).getLastD upto) := by
  induction entries generalizing lg upto with
  | nil => simp [addLoop, batchSize]
  | cons p rest ih =>
    have hacc : lg.can_accomodate p.2 = true := by
      simp only [LogGroup.can_accomodate, decide_eq_true_eq]
      simp only [List.length_cons] at h
      omega
    have hnext : ({ lg with
        m_nrecords := lg.m_nrecords + 1
        m_records := lg.m_records ++ [p.2]
        m_actual_data_size := lg.m_actual_data_size + p.2.data_size } : LogGroup).m_nrecords +
        rest.length ≤ ({ lg with
        m_nrecords := lg.m_nrecords + 1
        m_records := lg.m_records ++ [p.2]
        m_actual_data_size := lg.m_actual_data_size + p.2.data_size } : LogGroup).m_max_records + 1 := by
      simp only [List.length_cons] at h
      simpa using by omega
    simp only [addLoop, LogGroup.add_record, hacc, if_true]
    rw [ih _ p.1 hnext]
    rw [List.map_cons, List.map_cons, List.getLastD_cons, batchSize_cons]
    refine Prod.ext ?_ rfl
    simp only [List.append_assoc, List.singleton_append, List.length_cons]
    congr 1 <;> first | rfl | omega

theorem flush_if_needed_noop (cfg : LogDevCfg) (idx : Int) (e : Nat) (s : LogDevState)
    (hp : s.m_pending_flush_size = 0) (hthr : 0 < cfg.flush_data_threshold_size) :
    flush_if_needed cfg 0 idx e s = (none, s) := by
  have hps : s.m_pending_flush_size + ((0 : Nat) : Int) = 0 := by rw [hp]; simp
  simp only [flush_if_needed, hps]
  have hcond : ¬ ((0 : Int) ≥ cfg.flush_data_threshold_size ∨
      ((0 : Int) ≠ 0 ∧ e > cfg.max_time_between_flush_us)) := by
    rintro (h | ⟨h1, -⟩)
    · omega
    · exact h1 rfl
  rw [if_neg hcond, ← hp]

theorem flushStep_spec (cfg : LogDevCfg) (old : List tracker_entry)
    (batch : List log_record) (eF eC : Nat) (s : LogDevState)
    (hrec : s.m_log_records = old ++ batch.map (fun r => ⟨r, false⟩))
    (hidx : s.m_log_idx = (old.length : Int) + batch.length)
    (hpend : s.m_pending_flush_size = (batchSize batch : Int))
    (hfl : s.m_is_flushing = false)
    (hlast : s.m_last_flush_idx = (old.length : Int) - 1)
    (hthr : 0 < cfg.flush_data_threshold_size)
    (hbspos : 0 < batchSize batch)
    (hlen : batch.length ≤ 197)
    (heF : eF > cfg.max_time_between_flush_us) :
    ∃ g s2,
      flushStep cfg eF eC s = (some g, s2) ∧
      g.prev_grp_crc = s.m_last_crc ∧
      g.cur_grp_crc = cfg.crc32 batch ∧
      s2.m_last_crc = cfg.crc32 batch ∧
      s2.m_log_records.length = old.length + batch.length ∧
      s2.m_log_idx = s.m_log_idx ∧
      s2.m_pending_flush_size = 0 ∧
      s2.m_is_flushing = false ∧
      s2.m_last_flush_idx = (old.length : Int) + batch.length - 1 ∧
      s2.m_block_flush_q = [] := by
  have hblen : 0 < batch.length := by
    rcases batch with _ | ⟨r, rest⟩
    · simp [batchSize] at hbspos
    · simp
  have hbsne : ((batchSize batch : Int)) ≠ 0 := by
    have : (0 : Int) < (batchSize batch : Int) := by exact_mod_cast hbspos
    omega
  have hps : s.m_pending_flush_size + ((0 : Nat) : Int) = (batchSize batch : Int) := by
    rw [hpend]; simp
  have hcond : ((batchSize batch : Int) ≥ cfg.flush_data_threshold_size ∨
      ((batchSize batch : Int) ≠ 0 ∧ eF > cfg.max_time_between_flush_us)) :=
    Or.inr ⟨hbsne, heF⟩
  -- the group assembled by prepare_flush
  have hentries : ({ s with
      m_pending_flush_size := (batchSize batch : Int)
      m_is_flushing := true } : LogDevState).activeEntries =
      (List.range batch.length).map
        (fun (k : Nat) => ((old.length : Int) + k, batch.getD k ⟨0, 0, 0, 0⟩)) := by
    exact activeEntries_eq old batch _ (by simpa using hrec) (by simpa using hidx)
      (by simpa using hlast)
  have hsnd : ((List.range batch.length).map
      (fun (k : Nat) => ((old.length : Int) + k, batch.getD k ⟨0, 0, 0, 0⟩))).map Prod.snd =
      batch := by
    rw [List.map_map]
    have : (Prod.snd ∘ fun (k : Nat) => ((old.length : Int) + k, batch.getD k ⟨0, 0, 0, 0⟩)) =
        fun (k : Nat) => batch.getD k ⟨0, 0, 0, 0⟩ := by
      funext k; rfl
    rw [this, map_getD_range]
  have hfst : (((List.range batch.length).map
      (fun (k : Nat) => ((old.length : Int) + k, batch.getD k ⟨0, 0, 0, 0⟩))).map
        Prod.fst).getLastD 0 = (old.length : Int) + batch.length - 1 := by
    rw [List.map_map]
    have : (Prod.fst ∘ fun (k : Nat) => ((old.length : Int) + k, batch.getD k ⟨0, 0, 0, 0⟩)) =
        fun (k : Nat) => ((old.length : Int)) + (k : Int) := by
      funext k; rfl
    rw [this, getLastD_range_add batch.length (old.length : Int) 0 hblen]
  have htonat : (((batch.length : Int)) + 5).toNat = batch.length + 5 := by omega
  have hmin : min (batch.length + 5) max_records_in_a_batch = batch.length + 5 := by
    have : max_records_in_a_batch = 202 := by norm_num [max_records_in_a_batch]
    omega
  have hprep : prepare_flush cfg ((batch.length : Int) + 5)
      ({ s with
         m_pending_flush_size := (batchSize batch : Int)
         m_is_flushing := true }) =
      ({ m_nrecords := batch.length
         m_max_records := batch.length + 5
         m_actual_data_size := batchSize batch
         m_records := batch
         prev_grp_crc := s.m_last_crc
         cur_grp_crc := cfg.crc32 batch
         m_flush_log_idx_from := (old.length : Int)
         m_flush_log_idx_upto := (old.length : Int) + batch.length - 1
         m_log_dev_offset := s.journal_tail },
       { s with
         m_pending_flush_size := (batchSize batch : Int)
         m_is_flushing := true
         journal_tail := s.journal_tail + (48 + 20 * batch.length + batchSize batch) }) := by
    unfold prepare_flush
    rw [hentries]
    simp only [make_log_group, htonat, hmin]
    rw [addLoop_all _ _ _ (by
      simp only [List.length_map, List.length_range]
      omega)]
    have hfrom : (old.length : Int) - 1 + 1 = (old.length : Int) := by ring
    simp only [hsnd, hfst, List.nil_append, Nat.zero_add,
      List.length_map, List.length_range, LogGroup.group_bytes, hlast, hfrom]
  -- the triggering flush_if_needed call
  have hstep1 : flush_if_needed cfg 0 (-1) eF s =
      (some { m_nrecords := batch.length
              m_max_records := batch.length + 5
              m_actual_data_size := batchSize batch
              m_records := batch
              prev_grp_crc := s.m_last_crc
              cur_grp_crc := cfg.crc32 batch
              m_flush_log_idx_from := (old.length : Int)
              m_flush_log_idx_upto := (old.length : Int) + batch.length - 1
              m_log_dev_offset := s.journal_tail },
       { s with
         m_pending_flush_size := 0
         m_is_flushing := true
         journal_tail := s.journal_tail + (48 + 20 * batch.length + batchSize batch) }) := by
    simp only [flush_if_needed, hps]
    rw [if_pos hcond]
    rw [if_neg (by simp [hfl])]
    simp only [if_true]
    have harg : s.m_log_idx - s.m_last_flush_idx + 4 = ((batch.length : Int)) + 5 := by
      rw [hidx, hlast]
      ring
    rw [harg, hprep]
    simp

  have hflush2 : flushStep cfg eF eC s =
      (some { m_nrecords := batch.length
              m_max_records := batch.length + 5
              m_actual_data_size := batchSize batch
              m_records := batch
              prev_grp_crc := s.m_last_crc
              cur_grp_crc := cfg.crc32 batch
              m_flush_log_idx_from := (old.length : Int)
              m_flush_log_idx_upto := (old.length : Int) + batch.length - 1
              m_log_dev_offset := s.journal_tail },
       { m_log_records := markComplete ((old.length : Int))
           ((old.length : Int) + batch.length - 1) 0 s.m_log_records
         m_log_idx := s.m_log_idx
         m_pending_flush_size := 0
         m_is_flushing := false
         m_last_flush_idx := (old.length : Int) + batch.length - 1
         m_last_crc := cfg.crc32 batch
         m_block_flush_q := []
         journal_tail := s.journal_tail + (48 + 20 * batch.length + batchSize batch) }) := by
    simp only [flushStep, hstep1]
    simp only [on_flush_completion, unlock_flush]
    rw [flush_if_needed_noop cfg (-1) eC _ (by simp) hthr]
  refine ⟨_, _, hflush2, rfl, rfl, rfl, ?_, rfl, rfl, rfl, rfl, rfl⟩
  simp only [markComplete_length, hrec, List.length_append, List.length_map]

/-- C1: CRC chaining across consecutively written log groups. Starting from a
formatted LogDev, append a first batch and let the timer-driven flush write it
as a group, then append a second batch and flush again: the first group
carries prev_group_crc = 0 and the second group's prev_group_crc equals the
first group's cur_group_crc. The hypotheses pin the regime in which exactly
these two flushes write groups: each batch has positive total payload below
the flush threshold (so appends trigger no flush of their own), at most 197
records per batch (one group holds a whole batch), the trigger happens on the
elapsed-time path, and the chained flush inside each completion sees no
pending data. -/
theorem logdev_crc_chain (cfg : LogDevCfg) (b1 b2 : List log_record)
    (eA eF eC : Nat)
    (hthr : 0 < cfg.flush_data_threshold_size)
    (heA : ¬ eA > cfg.max_time_between_flush_us)
    (heF : eF > cfg.max_time_between_flush_us)
    (hb1pos : 0 < batchSize b1) (hb2pos : 0 < batchSize b2)
    (hb1lt : (batchSize b1 : Int) < cfg.flush_data_threshold_size)
    (hb2lt : (batchSize b2 : Int) < cfg.flush_data_threshold_size)
    (hl1 : b1.length ≤ 197) (hl2 : b2.length ≤ 197) :
    (flushStep cfg eF eC (appendBatch cfg eA b1 LogDevState.formatted)).1.isSome = true ∧
    (flushStep cfg eF eC (appendBatch cfg eA b2
      (flushStep cfg eF eC (appendBatch cfg eA b1 LogDevState.formatted)).2)).1.isSome = true ∧
    ((flushStep cfg eF eC (appendBatch cfg eA b1 LogDevState.formatted)).1.getD
      ⟨0, 0, 0, [], 0, 0, 0, 0, 0⟩).prev_grp_crc = 0 ∧
    ((flushStep cfg eF eC (appendBatch cfg eA b2
      (flushStep cfg eF eC (appendBatch cfg eA b1 LogDevState.formatted)).2)).1.getD
        ⟨0, 0, 0, [], 0, 0, 0, 0, 0⟩).prev_grp_crc =
      ((flushStep cfg eF eC (appendBatch cfg eA b1 LogDevState.formatted)).1.getD
        ⟨0, 0, 0, [], 0, 0, 0, 0, 0⟩).cur_grp_crc := by
  have h1 := appendBatch_no_flush cfg eA b1 LogDevState.formatted heA
    (by simpa [LogDevState.formatted] using hb1lt) (by simp [LogDevState.formatted])
  obtain ⟨g1, s2, hfs1, hg1prev, hg1cur, hs2crc, hs2len, hs2idx, hs2pend, hs2fl,
      hs2last, hs2q⟩ :=
    flushStep_spec cfg [] b1 eF eC (appendBatch cfg eA b1 LogDevState.formatted)
      (by rw [h1]; simp [LogDevState.formatted])
      (by rw [h1]; simp [LogDevState.formatted])
      (by rw [h1]; simp [LogDevState.formatted])
      (by rw [h1]; rfl)
      (by rw [h1]; simp [LogDevState.formatted])
      hthr hb1pos hl1 heF
  have hidx2 : s2.m_log_idx = (b1.length : Int) := by
    rw [hs2idx, h1]
    simp [LogDevState.formatted]
  have hlen2 : s2.m_log_records.length = b1.length := by simpa using hs2len
  have h2 := appendBatch_no_flush cfg eA b2 s2 heA
    (by rw [hs2pend]; simpa using hb2lt) (by rw [hs2pend])
  obtain ⟨g2, s4, hfs2, hg2prev, hg2cur, hs4crc, hs4len, hs4idx, hs4pend, hs4fl,
      hs4last, hs4q⟩ :=
    flushStep_spec cfg s2.m_log_records b2 eF eC (appendBatch cfg eA b2 s2)
      (by rw [h2])
      (by rw [h2]; simp only [hidx2, hlen2])
      (by rw [h2]; rw [hs2pend]; simp)
      (by rw [h2]; simpa using hs2fl)
      (by rw [h2]; simp only [hs2last, hlen2, List.length_nil, Nat.cast_zero]; omega)
      hthr hb2pos hl2 heF
  have hcrc1 : (appendBatch cfg eA b1 LogDevState.formatted).m_last_crc = 0 := by
    rw [h1]
    simp [LogDevState.formatted, INVALID_CRC32_VALUE]
  have hcrc2 : (appendBatch cfg eA b2 s2).m_last_crc = cfg.crc32 b1 := by
    rw [h2]
    simpa using hs2crc
  refine ⟨?_, ?_, ?_, ?_⟩
  · rw [hfs1]
    rfl
  · rw [hfs1]
    rw [show ((some g1, s2) : Option LogGroup × LogDevState).2 = s2 from rfl]
    rw [hfs2]
    rfl
  · rw [hfs1]
    simp only [Option.getD_some]
    rw [hg1prev, hcrc1]
  · rw [hfs1]
    rw [show ((some g1, s2) : Option LogGroup × LogDevState).2 = s2 from rfl]
    rw [hfs2]
    simp only [Option.getD_some]
    rw [hg2prev, hcrc2, ← hg1cur]

/-- Witness for C1: two single-record batches through format, flush, append,
flush; both flushes write groups, the first with prev crc 0, the second
chained to the first group's crc. -/
theorem logdev_crc_chain_witness :
    (flushStep ⟨100, 10, fun l => 2 * l.length + 1⟩ 11 0
      (appendBatch ⟨100, 10, fun l => 2 * l.length + 1⟩ 0
        [⟨3, 0, 1, 0⟩] LogDevState.formatted)).1.isSome = true ∧
    (flushStep ⟨100, 10, fun l => 2 * l.length + 1⟩ 11 0
      (appendBatch ⟨100, 10, fun l => 2 * l.length + 1⟩ 0 [⟨4, 0, 2, 0⟩]
        (flushStep ⟨100, 10, fun l => 2 * l.length + 1⟩ 11 0
          (appendBatch ⟨100, 10, fun l => 2 * l.length + 1⟩ 0
            [⟨3, 0, 1, 0⟩] LogDevState.formatted)).2)).1.isSome = true ∧
    ((flushStep ⟨100, 10, fun l => 2 * l.length + 1⟩ 11 0
      (appendBatch ⟨100, 10, fun l => 2 * l.length + 1⟩ 0
        [⟨3, 0, 1, 0⟩] LogDevState.formatted)).1.getD
      ⟨0, 0, 0, [], 0, 0, 0, 0, 0⟩).prev_grp_crc = 0 ∧
    ((flushStep ⟨100, 10, fun l => 2 * l.length + 1⟩ 11 0
      (appendBatch ⟨100, 10, fun l => 2 * l.length + 1⟩ 0 [⟨4, 0, 2, 0⟩]
        (flushStep ⟨100, 10, fun l => 2 * l.length + 1⟩ 11 0
          (appendBatch ⟨100, 10, fun l => 2 * l.length + 1⟩ 0
            [⟨3, 0, 1, 0⟩] LogDevState.formatted)).2)).1.getD
        ⟨0, 0, 0, [], 0, 0, 0, 0, 0⟩).prev_grp_crc =
      ((flushStep ⟨100, 10, fun l => 2 * l.length + 1⟩ 11 0
        (appendBatch ⟨100, 10, fun l => 2 * l.length + 1⟩ 0
          [⟨3, 0, 1, 0⟩] LogDevState.formatted)).1.getD
        ⟨0, 0, 0, [], 0, 0, 0, 0, 0⟩).cur_grp_crc :=
  logdev_crc_chain ⟨100, 10, fun l => 2 * l.length + 1⟩ [⟨3, 0, 1, 0⟩] [⟨4, 0, 2, 0⟩]
    0 11 0 (by decide) (by decide) (by decide) (by decide) (by decide)
    (by decide) (by decide) (by decide) (by decide)

/-- Witness for C7 at a concrete two-record group: last_flush_idx advances to
1, the crc is taken from the group, record 0 is marked complete, and the trace
is the complete-range event, the two callbacks in ascending order, the crc
update and the unlock, in that order. -/
theorem logdev_flush_completion_order_witness :
    ((on_flush_completion ⟨8, 100, fun l => l.length⟩
        ⟨2, 7, 9, [⟨4, 0, 1, 0⟩, ⟨5, 0, 2, 0⟩], 0, 5, 0, 1, 64⟩ 0
        { m_log_records := [⟨⟨4, 0, 1, 0⟩, false⟩, ⟨⟨5, 0, 2, 0⟩, false⟩],
          m_log_idx := 2, m_pending_flush_size := 0, m_is_flushing := true,
          m_last_flush_idx := -1, m_last_crc := 0, m_block_flush_q := [],
          journal_tail := 128 }).1.m_last_flush_idx = 1) ∧
    ((on_flush_completion ⟨8, 100, fun l => l.length⟩
        ⟨2, 7, 9, [⟨4, 0, 1, 0⟩, ⟨5, 0, 2, 0⟩], 0, 5, 0, 1, 64⟩ 0
        { m_log_records := [⟨⟨4, 0, 1, 0⟩, false⟩, ⟨⟨5, 0, 2, 0⟩, false⟩],
          m_log_idx := 2, m_pending_flush_size := 0, m_is_flushing := true,
          m_last_flush_idx := -1, m_last_crc := 0, m_block_flush_q := [],
          journal_tail := 128 }).1.m_last_crc = 5) ∧
    (((on_flush_completion ⟨8, 100, fun l => l.length⟩
        ⟨2, 7, 9, [⟨4, 0, 1, 0⟩, ⟨5, 0, 2, 0⟩], 0, 5, 0, 1, 64⟩ 0
        { m_log_records := [⟨⟨4, 0, 1, 0⟩, false⟩, ⟨⟨5, 0, 2, 0⟩, false⟩],
          m_log_idx := 2, m_pending_flush_size := 0, m_is_flushing := true,
          m_last_flush_idx := -1, m_last_crc := 0, m_block_flush_q := [],
          journal_tail := 128 }).1.m_log_records.getD 0
        ⟨⟨0, 0, 0, 0⟩, false⟩).completed = true) ∧
    ((on_flush_completion ⟨8, 100, fun l => l.length⟩
        ⟨2, 7, 9, [⟨4, 0, 1, 0⟩, ⟨5, 0, 2, 0⟩], 0, 5, 0, 1, 64⟩ 0
        { m_log_records := [⟨⟨4, 0, 1, 0⟩, false⟩, ⟨⟨5, 0, 2, 0⟩, false⟩],
          m_log_idx := 2, m_pending_flush_size := 0, m_is_flushing := true,
          m_last_flush_idx := -1, m_last_crc := 0, m_block_flush_q := [],
          journal_tail := 128 }).2 =
      [.completeRange 0 1] ++
      (intRange 0 1).map (fun idx =>
        .appendCb (LogDevState.trackerRecAt
            { m_log_records := [⟨⟨4, 0, 1, 0⟩, false⟩, ⟨⟨5, 0, 2, 0⟩, false⟩],
              m_log_idx := 2, m_pending_flush_size := 0, m_is_flushing := true,
              m_last_flush_idx := -1, m_last_crc := 0, m_block_flush_q := [],
              journal_tail := 128 } idx).store_id idx 64 1 ((1 : Int) - idx).toNat
          (LogDevState.trackerRecAt
            { m_log_records := [⟨⟨4, 0, 1, 0⟩, false⟩, ⟨⟨5, 0, 2, 0⟩, false⟩],
              m_log_idx := 2, m_pending_flush_size := 0, m_is_flushing := true,
              m_last_flush_idx := -1, m_last_crc := 0, m_block_flush_q := [],
              journal_tail := 128 } idx).context) ++
      [.setLastCrc 5] ++ List.map .blockedCb [] ++ [.unlockFlush]) :=
  by
  have h := logdev_flush_completion_order ⟨8, 100, fun l => l.length⟩
    ⟨2, 7, 9, [⟨4, 0, 1, 0⟩, ⟨5, 0, 2, 0⟩], 0, 5, 0, 1, 64⟩ 0
    { m_log_records := [⟨⟨4, 0, 1, 0⟩, false⟩, ⟨⟨5, 0, 2, 0⟩, false⟩],
      m_log_idx := 2, m_pending_flush_size := 0, m_is_flushing := true,
      m_last_flush_idx := -1, m_last_crc := 0, m_block_flush_q := [],
      journal_tail := 128 } ⟨⟨0, 0, 0, 0⟩, false⟩
  exact ⟨h.1, h.2.1, h.2.2.1 0 (by decide) (by decide) (by decide), h.2.2.2⟩

/-! ## WriteBackCache (src/engine/homeds/btree/writeBack_cache.hpp) -/

/-- writeback_req_state: INIT → WAITING → SENT → COMPL. -/
inductive writeback_req_state
  | WB_REQ_INIT
  | WB_REQ_WAITING
  | WB_REQ_SENT
  | WB_REQ_COMPL
deriving DecidableEq, Repr

/-- btree_status_t, restricted to the values refresh_buf returns. -/
inductive btree_status_t
  | success
  | cp_mismatch
deriving DecidableEq, Repr

/-- An entry of a writeback_req's req_q: the dependent request's counter and
state (its own queue is drained by its own completion and is not modelled
inside the entry). -/
structure wb_successor where
  dependent_cnt : Nat
  state : writeback_req_state
deriving DecidableEq, Repr

/-- writeback_req: its state, its dependent (predecessor) counter and the
queue of requests to release when it completes. -/
structure writeback_req where
  state : writeback_req_state
  dependent_cnt : Nat
  req_q : List wb_successor
deriving DecidableEq, Repr

/-- MAX_CP_CNT = 2. -/
def MAX_CP_CNT : Nat := 2

/-- A node buffer's data: an original buffer or a deep copy of one. -/
inductive MemVec
  | base (id : Nat)
  | deepCopy (of : MemVec)
deriving DecidableEq, Repr

/-- The WriteBackCacheBuffer fields refresh_buf consults: the last-writer
checkpoint id (bcp->cp_id; none models a null bcp), the per-slot pending
requests req[MAX_CP_CNT], and the node's memvec. -/
structure SSDBtreeNode where
  bcp : Option Nat
  req0 : Option writeback_req
  req1 : Option writeback_req
  memvec : MemVec
deriving DecidableEq, Repr

/-- req[i] for slot i. -/
def SSDBtreeNode.reqAt (bn : SSDBtreeNode) (i : Nat) : Option writeback_req :=
  if i = 0 then bn.req0 else bn.req1

/-- WriteBackCache::refresh_buf(node, is_write_modifiable, bcp): status plus
the (possibly deep-copied) node. The checkpoint arguments carry only the
cp_id; none models a null pointer. -/
def refresh_buf (bn : SSDBtreeNode) (is_write_modifiable : Bool) (bcp : Option Nat) :
    btree_status_t × SSDBtreeNode :=
  match bcp, bn.bcp with
  | none, _ => (.success, bn)
  | some _, none => (.success, bn)
  | some cp, some ncp =>
    if !is_write_modifiable then
      if ncp > cp then (.cp_mismatch, bn) else (.success, bn)
    else if ncp = cp then (.success, bn)
    else if ncp > cp then (.cp_mismatch, bn)
    else
      let prev_cp_id := (cp - 1) % MAX_CP_CNT
      match bn.reqAt prev_cp_id with
      | none => (.success, bn)
      | some req =>
        if req.state = .WB_REQ_COMPL then (.success, bn)
        else (.success, { bn with memvec := .deepCopy bn.memvec })

/-- The node's previous-slot request exists and is not COMPL (a copy is
needed before mutating under a newer checkpoint). -/
def prev_slot_pending (bn : SSDBtreeNode) (cp : Nat) : Bool :=
  match bn.reqAt ((cp - 1) % MAX_CP_CNT) with
  | none => false
  | some req => decide (req.state ≠ .WB_REQ_COMPL)

/-- C8: for refresh_buf with is_write_modifiable = true and both checkpoints
set: equal checkpoint ids give success; a newer node checkpoint gives
cp_mismatch; an older node checkpoint gives success, deep-copying the node's
buffer into a fresh memvec exactly when the previous-slot request exists and
is not COMPL, and leaving the node untouched otherwise. -/
theorem wbcache_refresh_buf_cases (bn : SSDBtreeNode) (cp ncp : Nat)
    (hn : bn.bcp = some ncp) :
    (ncp = cp → refresh_buf bn true (some cp) = (.success, bn)) ∧
    (ncp > cp → refresh_buf bn true (some cp) = (.cp_mismatch, bn)) ∧
    (ncp < cp →
      refresh_buf bn true (some cp) =
        (.success,
         if prev_slot_pending bn cp then { bn with memvec := .deepCopy bn.memvec }
         else bn)) := by
  refine ⟨?_, ?_, ?_⟩
  · intro he
    simp [refresh_buf, hn, he]
  · intro hgt
    have hne : ¬ ncp = cp := by omega
    simp [refresh_buf, hn, hne, hgt]
  · intro hlt
    have hne : ¬ ncp = cp := by omega
    have hngt : ¬ ncp > cp := by omega
    simp only [refresh_buf, hn, Bool.not_true, Bool.false_eq_true, if_false, hne, hngt,
      ite_false, if_neg]
    cases hreq : bn.reqAt ((cp - 1) % MAX_CP_CNT) with
    | none => simp [prev_slot_pending, hreq, hne, hngt]
    | some req =>
      by_cases hc : req.state = .WB_REQ_COMPL
      · simp [prev_slot_pending, hreq, hc, hne, hngt]
      · simp [prev_slot_pending, hreq, hc, hne, hngt]

/-- Witness for C8: a node last written by checkpoint 3 refreshed under
checkpoint 5 whose previous-slot (slot 0) request is SENT: success with a
deep copy. -/
theorem wbcache_refresh_buf_cases_witness :
    refresh_buf ⟨some 3, some ⟨.WB_REQ_SENT, 0, []⟩, none, .base 7⟩ true (some 5) =
      (.success,
       if prev_slot_pending ⟨some 3, some ⟨.WB_REQ_SENT, 0, []⟩, none, .base 7⟩ 5 then
         { (⟨some 3, some ⟨.WB_REQ_SENT, 0, []⟩, none, .base 7⟩ : SSDBtreeNode) with
           memvec := .deepCopy (MemVec.base 7) }
       else ⟨some 3, some ⟨.WB_REQ_SENT, 0, []⟩, none, .base 7⟩) :=
  (wbcache_refresh_buf_cases ⟨some 3, some ⟨.WB_REQ_SENT, 0, []⟩, none, .base 7⟩ 5 3
    rfl).2.2 (by decide)

/-- Dirty counters and request lists of the two checkpoint slots
(m_dirty_buf_cnt[MAX_CP_CNT], m_req_list[MAX_CP_CNT]). -/
structure WBCacheState where
  dirty0 : Nat
  dirty1 : Nat
  req_list0 : List writeback_req
  req_list1 : List writeback_req
deriving DecidableEq, Repr

/-- m_dirty_buf_cnt[i]. -/
def WBCacheState.dirtyAt (s : WBCacheState) (i : Nat) : Nat :=
  if i = 0 then s.dirty0 else s.dirty1

/-- Write m_dirty_buf_cnt[i]. -/
def WBCacheState.setDirty (s : WBCacheState) (i : Nat) (v : Nat) : WBCacheState :=
  if i = 0 then { s with dirty0 := v } else { s with dirty1 := v }

/-- m_req_list[i]. -/
def WBCacheState.reqListAt (s : WBCacheState) (i : Nat) : List writeback_req :=
  if i = 0 then s.req_list0 else s.req_list1

/-- Write m_req_list[i]. -/
def WBCacheState.setReqList (s : WBCacheState) (i : Nat) (l : List writeback_req) :
    WBCacheState :=
  if i = 0 then { s with req_list0 := l } else { s with req_list1 := l }

/-- WriteBackCache::write for a node with no request in this slot yet: create
a WAITING request with dependent_cnt 1 (the self reference), append it to the
slot's list and raise the slot's dirty counter. -/
def wbcache_write_new (cp_id : Nat) (s : WBCacheState) : WBCacheState :=
  let i := cp_id % MAX_CP_CNT
  (s.setDirty i (s.dirtyAt i + 1)).setReqList i
    ((s.reqListAt i) ++ [⟨.WB_REQ_WAITING, 1, []⟩])

/-- One request step of the flush_buffers loop: decrement dependent_cnt; on
zero, transition WAITING→SENT (the blkstore write is submitted). -/
def flushLoopStep (r : writeback_req) : writeback_req :=
  if r.dependent_cnt - 1 = 0 then { r with dependent_cnt := 0, state := .WB_REQ_SENT }
  else { r with dependent_cnt := r.dependent_cnt - 1 }

/-- WriteBackCache::flush_buffers(cp): raise the slot's dirty counter by one
(the pseudo request standing for the running flush loop), walk the request
list decrementing each dependent counter and submitting those that reach
zero, clear the list, then drop the pseudo request; the returned Bool is
whether the counter thereby reached zero and the checkpoint-complete callback
fired. -/
def flush_buffers (cp_id : Nat) (s : WBCacheState) : WBCacheState × Bool :=
  let i := cp_id % MAX_CP_CNT
  let d := s.dirtyAt i + 1
  let _submitted := (s.reqListAt i).map flushLoopStep
  let s1 := (s.setDirty i (d - 1)).setReqList i []
  (s1, d - 1 = 0)

/-- WriteBackCache::writeBack_completion_internal for one request: mark it
COMPL, drain its req_q decrementing each dependent counter (submitting those
reaching zero), and decrement the slot's dirty counter; the returned Bool is
whether the counter reached zero and the checkpoint-complete callback fired. -/
def writeBack_completion (cp_id : Nat) (r : writeback_req) (s : WBCacheState) :
    WBCacheState × Bool :=
  let i := cp_id % MAX_CP_CNT
  let _completed : writeback_req := { r with state := .WB_REQ_COMPL }
  let _released := r.req_q.map (fun q =>
    if q.dependent_cnt - 1 = 0 then { q with dependent_cnt := 0, state := .WB_REQ_SENT }
    else { q with dependent_cnt := q.dependent_cnt - 1 })
  let d := s.dirtyAt i - 1
  (s.setDirty i d, d = 0)

/-- Run the write-completion callback once per flushed request, counting how
often the checkpoint-complete callback fires. -/
def runCompletions (cp_id : Nat) (rs : List writeback_req) (s : WBCacheState) :
    WBCacheState × Nat :=
  match rs with
  | [] => (s, 0)
  | r :: rest =>
    let p1 := writeBack_completion cp_id r s
    let p2 := runCompletions cp_id rest p1.1
    (p2.1, (if p1.2 then 1 else 0) + p2.2)

theorem dirtyAt_setDirty (s : WBCacheState) (i : Nat) (v : Nat) :
    (s.setDirty i v).dirtyAt i = v := by
  unfold WBCacheState.setDirty WBCacheState.dirtyAt
  split <;> simp_all

theorem dirtyAt_setReqList (s : WBCacheState) (i j : Nat) (l : List writeback_req) :
    (s.setReqList i l).dirtyAt j = s.dirtyAt j := by
  unfold WBCacheState.setReqList WBCacheState.dirtyAt
  split <;> split <;> rfl

theorem runCompletions_spec (cp_id : Nat) (rs : List writeback_req)
    (s : WBCacheState) (hd : s.dirtyAt (cp_id % MAX_CP_CNT) = rs.length) :
    (runCompletions cp_id rs s).2 = (if rs.length = 0 then 0 else 1) ∧
    (runCompletions cp_id rs s).1.dirtyAt (cp_id % MAX_CP_CNT) = 0 := by
  induction rs generalizing s with
  | nil => simpa [runCompletions] using hd
  | cons r rest ih =>
    simp only [List.length_cons] at hd
    have hstep : (writeBack_completion cp_id r s).1.dirtyAt (cp_id % MAX_CP_CNT) =
        rest.length := by
      simp only [writeBack_completion, dirtyAt_setDirty, hd]
      omega
    have hfired : (writeBack_completion cp_id r s).2 = decide (rest.length = 0) := by
      simp only [writeBack_completion, hd, decide_eq_decide]
      omega
    obtain ⟨hcount, hzero⟩ := ih _ hstep
    constructor
    · simp only [runCompletions, hcount, hfired]
      rcases Nat.eq_zero_or_pos rest.length with h0 | hpos
      · simp [h0]
      · have : ¬ rest.length = 0 := by omega
        simp [this, List.length_cons]
    · simpa [runCompletions] using hzero

/-- C9: with the slot's dirty counter equal to the number of requests created
for the checkpoint, the checkpoint-complete callback fires exactly once over
one flush_buffers call followed by one write-completion per request; it fires
exactly at the decrement that reaches zero (conjuncts 2 and 5); for a
checkpoint with zero dirty nodes it fires within flush_buffers itself; and for
a nonempty checkpoint it fires in a write-completion callback, not in
flush_buffers. -/
theorem wbcache_cp_complete_once (cp_id : Nat) (s0 : WBCacheState)
    (rs : List writeback_req)
    (hd : s0.dirtyAt (cp_id % MAX_CP_CNT) = rs.length) :
    ((if (flush_buffers cp_id s0).2 then 1 else 0) +
      (runCompletions cp_id rs (flush_buffers cp_id s0).1).2 = 1) ∧
    ((flush_buffers cp_id s0).2 = true →
      (flush_buffers cp_id s0).1.dirtyAt (cp_id % MAX_CP_CNT) = 0) ∧
    (rs = [] → (flush_buffers cp_id s0).2 = true) ∧
    (rs ≠ [] → (flush_buffers cp_id s0).2 = false) ∧
    (∀ (r : writeback_req) (t : WBCacheState), (writeBack_completion cp_id r t).2 = true →
      (writeBack_completion cp_id r t).1.dirtyAt (cp_id % MAX_CP_CNT) = 0) ∧
    (runCompletions cp_id rs (flush_buffers cp_id s0).1).1.dirtyAt
      (cp_id % MAX_CP_CNT) = 0 := by
  have hfb1 : (flush_buffers cp_id s0).1.dirtyAt (cp_id % MAX_CP_CNT) = rs.length := by
    simp only [flush_buffers, dirtyAt_setReqList, dirtyAt_setDirty, hd]
    omega
  have hfb2 : (flush_buffers cp_id s0).2 = decide (rs.length = 0) := by
    simp only [flush_buffers, hd, decide_eq_decide]
    omega
  obtain ⟨hcount, hzero⟩ := runCompletions_spec cp_id rs _ hfb1
  refine ⟨?_, ?_, ?_, ?_, ?_, hzero⟩
  · rw [hcount, hfb2]
    rcases Nat.eq_zero_or_pos rs.length with h0 | hpos
    · simp [h0]
    · have : ¬ rs.length = 0 := by omega
      simp [this]
  · intro hfire
    rw [hfb1]
    rw [hfb2] at hfire
    simpa using hfire
  · intro hnil
    subst hnil
    simp at hfb2
    exact hfb2
  · intro hne
    rw [hfb2]
    simp [List.length_eq_zero, hne]
  · intro r t hfire
    simp only [writeBack_completion, decide_eq_true_eq] at hfire
    simp only [writeBack_completion, dirtyAt_setDirty]
    exact hfire

/-- Witness for C9: two pending requests in slot 0 of checkpoint 4: the flush
loop does not fire the callback, the two completions fire it exactly once and
leave the counter at zero. -/
theorem wbcache_cp_complete_once_witness :
    ((if (flush_buffers 4 ⟨2, 0, [⟨.WB_REQ_WAITING, 1, []⟩, ⟨.WB_REQ_WAITING, 1, []⟩],
        []⟩).2 then 1 else 0) +
      (runCompletions 4 [⟨.WB_REQ_WAITING, 1, []⟩, ⟨.WB_REQ_WAITING, 1, []⟩]
        (flush_buffers 4 ⟨2, 0, [⟨.WB_REQ_WAITING, 1, []⟩, ⟨.WB_REQ_WAITING, 1, []⟩],
          []⟩).1).2 = 1) ∧
    ((flush_buffers 4 ⟨2, 0, [⟨.WB_REQ_WAITING, 1, []⟩, ⟨.WB_REQ_WAITING, 1, []⟩],
        []⟩).2 = false) ∧
    ((runCompletions 4 [⟨.WB_REQ_WAITING, 1, []⟩, ⟨.WB_REQ_WAITING, 1, []⟩]
      (flush_buffers 4 ⟨2, 0, [⟨.WB_REQ_WAITING, 1, []⟩, ⟨.WB_REQ_WAITING, 1, []⟩],
        []⟩).1).1.dirtyAt (4 % MAX_CP_CNT) = 0) :=
  ⟨(wbcache_cp_complete_once 4
      ⟨2, 0, [⟨.WB_REQ_WAITING, 1, []⟩, ⟨.WB_REQ_WAITING, 1, []⟩], []⟩
      [⟨.WB_REQ_WAITING, 1, []⟩, ⟨.WB_REQ_WAITING, 1, []⟩] (by decide)).1,
   (wbcache_cp_complete_once 4
      ⟨2, 0, [⟨.WB_REQ_WAITING, 1, []⟩, ⟨.WB_REQ_WAITING, 1, []⟩], []⟩
      [⟨.WB_REQ_WAITING, 1, []⟩, ⟨.WB_REQ_WAITING, 1, []⟩] (by decide)).2.2.2.1
     (by decide),
   (wbcache_cp_complete_once 4
      ⟨2, 0, [⟨.WB_REQ_WAITING, 1, []⟩, ⟨.WB_REQ_WAITING, 1, []⟩], []⟩
      [⟨.WB_REQ_WAITING, 1, []⟩, ⟨.WB_REQ_WAITING, 1, []⟩] (by decide)).2.2.2.2.2⟩

end HomestoreSpec
